import Mathlib

/-!
Verification of the docker-logproxy core against its specification.

The development shallowly embeds the log-stream protocol layer, the NDJSON
codec, the retrieval service and the collector lifecycle of the repository.
Byte streams are lists of naturals, text is a list of characters, and the
blocking readers of the Go source are modeled by pure functions that compute
the result of driving a reader to exhaustion.
-/

set_option maxHeartbeats 1000000

namespace DockerLogProxy

/-- A byte of a raw log stream. Well-formed data keeps values below 256;
the demultiplexer itself never relies on that bound. -/
abbrev Byte := Nat

/-- Mirrors `LogsQuery` (dockerlogproxy/log_service.go) and the identical
`Query` of internal/log: the parameters of one retrieval request. -/
structure LogsQuery where
  containerName : String
  includeStdout : Bool
  includeStderr : Bool
  follow : Bool
deriving Repr, DecidableEq

/-- One frame of the multiplexed Docker log stream: a channel-selector byte
followed (after three reserved bytes and a 4-byte big-endian length) by the
payload. The abstract frame carries the selector and the payload; its
well-formed wire encoding is `encodeFrame`. -/
structure Frame where
  stream : Byte
  payload : List Byte
deriving Repr, DecidableEq

/-- Big-endian 4-byte encoding of a length, as read by
`binary.BigEndian.Uint32(hdr[4:])`. -/
def be32 (n : Nat) : List Byte :=
  [n / 16777216 % 256, n / 65536 % 256, n / 256 % 256, n % 256]

/-- Wire encoding of one frame: header `{selector, 3 reserved zero bytes,
big-endian length}` then the payload, as described by the stdcopy format. -/
def encodeFrame (f : Frame) : List Byte :=
  f.stream :: 0 :: 0 :: 0 :: (be32 f.payload.length ++ f.payload)

/-- Wire encoding of a sequence of frames, concatenated in order. -/
def encodeFrames (fs : List Frame) : List Byte :=
  (fs.map encodeFrame).flatten

/-- Channel selection applied by `LogsFilterReader.Read`: selector byte 1 is
stdout, selector byte 2 is stderr, anything else is never included. -/
def frameSelected (includeStdout includeStderr : Bool) (f : Frame) : Bool :=
  (f.stream == 1 && includeStdout) || (f.stream == 2 && includeStderr)

/-- Result of driving the non-TTY branch of `LogsFilterReader.Read`
(dockerlogproxy/log_service.go, lines 126-158) to exhaustion on a finite
source. Each iteration reads a full 8-byte header (`io.ReadFull`), skips
zero-length frames, emits the payload of a selected frame and discards the
payload of an unselected one (`io.CopyN` to `io.Discard`). A source that
ends with 1 to 7 header bytes remaining makes `io.ReadFull` fail with
`io.ErrUnexpectedEOF`; a source ending at a frame boundary yields `io.EOF`,
i.e. a clean end of stream. A source ending inside a payload ends cleanly
with the available payload bytes, matching `io.LimitedReader` and
`io.CopyN` returning `io.EOF` to the read loop. -/
def demuxReadAll (includeStdout includeStderr : Bool) : List Byte → Except String (List Byte)
  | [] => Except.ok []
  | s :: _ :: _ :: _ :: b3 :: b2 :: b1 :: b0 :: rest =>
    let size := ((b3 * 256 + b2) * 256 + b1) * 256 + b0
    if size = 0 then
      demuxReadAll includeStdout includeStderr rest
    else if (s == 1 && includeStdout) || (s == 2 && includeStderr) then
      (demuxReadAll includeStdout includeStderr (rest.drop size)).map
        (fun out => rest.take size ++ out)
    else
      demuxReadAll includeStdout includeStderr (rest.drop size)
  | _ => Except.error "unexpected EOF"
termination_by l => l.length
decreasing_by
  all_goals simp_all [List.length_drop]
  all_goals omega

/-- Mirrors the `LogsFilterReader` struct: the wrapped source and the three
configuration flags. -/
structure LogsFilterReader where
  rc : List Byte
  includeStdout : Bool
  includeStderr : Bool
  tty : Bool
deriving Repr, DecidableEq

/-- Mirrors `NewLogsFilterReader(rc, includeStdout, includeStderr, tty)`
(dockerlogproxy/log_service.go, lines 106-118), with the parameters in the
declared order. -/
def NewLogsFilterReader (rc : List Byte) (includeStdout includeStderr tty : Bool) :
    LogsFilterReader :=
  { rc := rc, tty := tty, includeStdout := includeStdout, includeStderr := includeStderr }

/-- Result of reading a `LogsFilterReader` to exhaustion: the TTY branch of
`Read` returns the source bytes as-is (`return r.rc.Read(p)`), the non-TTY
branch demultiplexes. -/
def LogsFilterReader.readAll (r : LogsFilterReader) : Except String (List Byte) :=
  if r.tty then Except.ok r.rc
  else demuxReadAll r.includeStdout r.includeStderr r.rc

/-- The storage-fallback reader built by `ContainerLogService.GetContainerLogs`
(dockerlogproxy/log_service.go, line 83). The source passes the arguments in
the order `NewLogsFilterReader(r, false, query.IncludeStdout,
query.IncludeStderr)`, so against the parameter list
`(rc, includeStdout, includeStderr, tty)` the reader is configured with
`includeStdout := false`, `includeStderr := query.IncludeStdout` and
`tty := query.IncludeStderr`. -/
def storageFallbackReader (query : LogsQuery) (stored : List Byte) : LogsFilterReader :=
  NewLogsFilterReader stored false query.includeStdout query.includeStderr

/-- The draining loop of `ndjsonWriter.Write` (internal/docker/client.go,
lines 218-233): repeatedly find the first newline in the buffer and emit
everything up to and including it, leaving the newline-free remainder
buffered. The result is the emitted lines and the remaining buffer. -/
def splitNL : List Char → List (List Char) × List Char
  | [] => ([], [])
  | c :: cs =>
    let r := splitNL cs
    if c = '\n' then (['\n'] :: r.1, r.2)
    else
      match r.1 with
      | [] => ([], c :: r.2)
      | l :: ls => ((c :: l) :: ls, r.2)

/-- One call of `ndjsonWriter.Write`: append the chunk to the buffer, then
drain every complete line. -/
def ndjsonWrite (buf p : List Char) : List (List Char) × List Char :=
  splitNL (buf ++ p)

/-- A sequence of `Write` calls starting from the given buffer: all lines
emitted, in order, together with the final buffer. -/
def ndjsonWriteAll (buf : List Char) : List (List Char) → List (List Char) × List Char
  | [] => ([], buf)
  | p :: ps =>
    let w := ndjsonWrite buf p
    let ws := ndjsonWriteAll w.2 ps
    (w.1 ++ ws.1, ws.2)

/-- `ndjsonWriter.Close` (internal/docker/client.go, lines 260-269): flush
the remaining buffered bytes as one final record iff the buffer is
non-empty. -/
def ndjsonClose (buf : List Char) : List (List Char) :=
  if buf.isEmpty then [] else [buf]

/-- All record texts produced by writing the chunks in order and closing the
encoder. -/
def ndjsonRecords (chunks : List (List Char)) : List (List Char) :=
  (ndjsonWriteAll [] chunks).1 ++ ndjsonClose (ndjsonWriteAll [] chunks).2

/-- Stream tag of a log record; the Go type is a string. -/
abbrev StreamType := String

/-- Mirrors `StreamTypeStdout` of internal/log. -/
def StreamTypeStdout : StreamType := "stdout"

/-- Mirrors `StreamTypeStderr` of internal/log. -/
def StreamTypeStderr : StreamType := "stderr"

/-- Mirrors `Record` of internal/log. The timestamp is a Nat-coded instant
in which 0 plays the role of the Go zero `time.Time`: the JSON tag omitzero
drops the zero value on the wire and a missing field decodes back to it. -/
structure Record where
  timestamp : Nat
  stream : StreamType
  log : List Char
deriving Repr, DecidableEq

/-- The persisted NDJSON stream, modeled at record granularity: the stdlib
encoding/json encoder writes one self-delimited JSON object per record and
its decoder yields the same records back in order. encoding/json is an
external collaborator of the repository, so its object syntax is not
re-modeled; the stream carries the records it transports. -/
structure NDJSONStream where
  records : List Record
deriving Repr, DecidableEq

/-- One `encoder.Encode` per record, in order. -/
def encodeNDJSON (recs : List Record) : NDJSONStream := { records := recs }

/-- The `json.Decoder` loop of Service.GetContainerLogs: records are decoded
one at a time until the stream ends. -/
def decodeNDJSON (s : NDJSONStream) : List Record := s.records

/-- Mirrors `ndjsonWriter.emit` (internal/docker/client.go, lines 238-258):
look for the first space byte (`bytes.IndexByte(line, ' ')`); when it sits
at a positive index and the token before it parses as a timestamp, strip
the token and the separator from the text and keep the parsed instant,
otherwise keep the whole line with the zero timestamp. The parameter
`parse` stands for the stdlib `time.Parse` with layout `time.RFC3339Nano`,
an external collaborator. -/
def emit (parse : List Char → Option Nat) (stream : StreamType) (line : List Char) : Record :=
  let sepIdx := line.findIdx (· == ' ')
  if 0 < sepIdx ∧ sepIdx < line.length then
    match parse (line.take sepIdx) with
    | some t => { timestamp := t, stream := stream, log := line.drop (sepIdx + 1) }
    | none => { timestamp := 0, stream := stream, log := line }
  else { timestamp := 0, stream := stream, log := line }

/-- A concrete stand-in for `time.Parse(time.RFC3339Nano, tok)` defined on
the one token the C8 instances use; on that token it agrees with the Go
function, which accepts "2024-01-01T00:00:00Z". -/
def parseExample (l : List Char) : Option Nat :=
  if l = "2024-01-01T00:00:00Z".data then some 1704067200 else none

/-- A log line whose leading parseable timestamp token is separated from the
rest of the line by a tab: a whitespace byte that is not the space byte. -/
def tabLine : List Char := "2024-01-01T00:00:00Z".data ++ '\t' :: "x\n".data

/-- The same log line with the separator being the space byte. -/
def spaceLine : List Char := "2024-01-01T00:00:00Z".data ++ ' ' :: "x\n".data

/-- Go errors as seen by the retrieval service: a domain error carrying a
code (the `*Error` of internal/log), an error wrapped by
`fmt.Errorf("context: %w", cause)`, or any other error value. -/
inductive GoError
  | domain (code : String) (message : String)
  | wrapped (context : String) (cause : GoError)
  | plain (message : String)
deriving Repr, DecidableEq

/-- Mirrors `ErrorCodeContainerNotFound` of internal/log. -/
def ErrorCodeContainerNotFound : String := "CONTAINER_NOT_FOUND"

/-- Model of `errors.As(err, &derr)`: unwrap `fmt.Errorf` wrapping until a
domain error appears, yielding its code. -/
def GoError.asDomainCode : GoError → Option String
  | .domain code _ => some code
  | .wrapped _ cause => cause.asDomainCode
  | .plain _ => none

/-- The test `errors.As(err, &derr) && derr.Code ==
ErrorCodeContainerNotFound` used at both decision points of
Service.GetContainerLogs. -/
def GoError.isContainerNotFound (e : GoError) : Bool :=
  e.asDomainCode == some ErrorCodeContainerNotFound

/-- The `Error() string` rendering, with `fmt.Errorf("%s: %w")` wrapping
prepending its context. -/
def GoError.errorString : GoError → String
  | .domain _ message => message
  | .wrapped context cause => context ++ ": " ++ cause.errorString
  | .plain message => message

/-- The `Query` of internal/log has the same fields as `LogsQuery`. -/
abbrev Query := LogsQuery

/-- The inclusion test of the piping goroutine of Service.GetContainerLogs
(part_003, lines 121-122): a decoded record is included iff its stream tag
is "stderr" and stderr is requested, or "stdout" and stdout is requested. -/
def recordIncluded (query : Query) (rec : Record) : Bool :=
  (rec.stream == StreamTypeStderr && query.includeStderr) ||
  (rec.stream == StreamTypeStdout && query.includeStdout)

/-- The piping goroutine of Service.GetContainerLogs (part_003, lines
106-129): decode the records in order and write `rec.Log` for each included
record; every other record produces no bytes and no error. -/
def filterNDJSON (query : Query) (recs : List Record) : List Char :=
  ((recs.filter (recordIncluded query)).map Record.log).flatten

/-- Mirrors `Service.GetContainerLogs` (internal/log, part_003, lines
77-132) as a function of the outcomes of the Docker fetch and of
`logStorage.Open`; the second component records whether storage was
consulted. A fetch error that `errors.As` resolves to the container-not-
found code triggers the storage fallback; any other fetch error is wrapped
and returned at once. A not-found storage error is returned as-is, any
other storage error is wrapped. Both success branches pipe the decoded
records through the same channel filter. -/
def getContainerLogs (query : Query)
    (fetchResult openResult : Except GoError NDJSONStream) :
    Except GoError (List Char) × Bool :=
  match fetchResult with
  | Except.ok stream => (Except.ok (filterNDJSON query (decodeNDJSON stream)), false)
  | Except.error e =>
    if e.isContainerNotFound then
      match openResult with
      | Except.ok stream => (Except.ok (filterNDJSON query (decodeNDJSON stream)), true)
      | Except.error e2 =>
        if e2.isContainerNotFound then (Except.error e2, true)
        else (Except.error (GoError.wrapped "open log file" e2), true)
    else (Except.error (GoError.wrapped "fetch container logs" e), false)

/-- Observable outcome of one request to the logs HTTP handler. -/
structure HandlerOutcome where
  status : Nat
  body : List Char
  serviceCalled : Bool
  storageContacted : Bool
deriving Repr, DecidableEq

/-- Mirrors `handleLogs` (src/http/logs.go, lines 11-50) composed with the
retrieval service: parse the stdout/stderr/follow query parameters
(stdout included iff the parameter is "1", stderr excluded only when the
parameter is "0"), answer an empty 200 response without invoking the
service when both include flags are off, and otherwise serve the service
result; both error branches of the handler write status 404. -/
def handleLogs (name stdoutParam stderrParam followParam : String)
    (fetchResult openResult : Except GoError NDJSONStream) : HandlerOutcome :=
  let includeStdout := stdoutParam == "1"
  let includeStderr := !(stderrParam == "0")
  if !includeStderr && !includeStdout then
    { status := 200, body := [], serviceCalled := false, storageContacted := false }
  else
    let query : Query := { containerName := name, includeStdout := includeStdout,
                           includeStderr := includeStderr, follow := followParam == "1" }
    match getContainerLogs query fetchResult openResult with
    | (Except.ok out, contacted) =>
      { status := 200, body := out, serviceCalled := true, storageContacted := contacted }
    | (Except.error e, contacted) =>
      { status := 404, body := e.errorString.data, serviceCalled := true,
        storageContacted := contacted }

/-- Phase of the main goroutine of `Collector.Run`
(internal/log/collector.go): discovering running containers, blocked in the
watch select, executing the deferred cleanup (before and after `cancel()`),
or returned. -/
inductive RunPhase
  | discovering
  | watching
  | cancelling
  | waiting
  | returned
deriving Repr, DecidableEq

/-- State of a `Collector.Run` execution: the main-goroutine phase, the
`sync.WaitGroup` counter, how many capture goroutines were spawned and how
many have exited, and whether the run context has been cancelled. Task
identity is abstracted to counts. -/
structure CollectorState where
  phase : RunPhase
  wgCount : Nat
  spawnedTasks : Nat
  exitedTasks : Nat
  cancelled : Bool
deriving Repr, DecidableEq

/-- Initial state: `Run` enters `discoverContainers` with an empty
WaitGroup. -/
def CollectorState.init : CollectorState :=
  { phase := .discovering, wgCount := 0, spawnedTasks := 0, exitedTasks := 0,
    cancelled := false }

/-- Interleaved small steps of `Collector.Run` and its capture goroutines.
Each constructor mirrors a control point of internal/log/collector.go:
a `ListContainers` failure aborts discovery without spawning; successful
discovery spawns one goroutine per filtered container, each preceded by
`wg.Add(1)`; a start event passing the name filter spawns one more, one not
passing it leaves the state unchanged; the watch loop exits on `ctx.Done()`,
on a closed channel or on a watch error; the deferred cleanup first runs
`cancel()` and then blocks in `wg.Wait()`, which completes only with a zero
counter; a capture goroutine may finish at any time, running its deferred
`wg.Done()`. -/
inductive CollectorStep : CollectorState → CollectorState → Prop
  | listContainersError (s : CollectorState) (h : s.phase = .discovering) :
      CollectorStep s { s with phase := .cancelling }
  | discoverSpawn (s : CollectorState) (k : Nat) (h : s.phase = .discovering) :
      CollectorStep s
        { s with phase := .watching, wgCount := s.wgCount + k,
                 spawnedTasks := s.spawnedTasks + k }
  | watchStartEvent (s : CollectorState) (h : s.phase = .watching) :
      CollectorStep s
        { s with wgCount := s.wgCount + 1, spawnedTasks := s.spawnedTasks + 1 }
  | watchSkipEvent (s : CollectorState) (h : s.phase = .watching) :
      CollectorStep s s
  | watchExit (s : CollectorState) (h : s.phase = .watching) :
      CollectorStep s { s with phase := .cancelling }
  | deferCancel (s : CollectorState) (h : s.phase = .cancelling) :
      CollectorStep s { s with phase := .waiting, cancelled := true }
  | taskExit (s : CollectorState) (h : s.exitedTasks < s.spawnedTasks) :
      CollectorStep s
        { s with wgCount := s.wgCount - 1, exitedTasks := s.exitedTasks + 1 }
  | waitReturn (s : CollectorState) (h : s.phase = .waiting) (hwg : s.wgCount = 0) :
      CollectorStep s { s with phase := .returned }

/-- States reachable by a `Collector.Run` execution from the initial
state. -/
inductive CollectorReachable : CollectorState → Prop
  | init : CollectorReachable CollectorState.init
  | step {s t : CollectorState} : CollectorReachable s → CollectorStep s t →
      CollectorReachable t

lemma be32_shape (n : Nat) :
    be32 n = [n / 16777216 % 256, n / 65536 % 256, n / 256 % 256, n % 256] := rfl

/-- Demultiplexing a well-formed frame sequence followed by any remaining
bytes first emits the selected payloads of the frames, in order, then
behaves as the demultiplexer of the remaining bytes. -/
lemma demuxReadAll_encodeFrames_append (incOut incErr : Bool) (fs : List Frame)
    (rest : List Byte) (h : ∀ f ∈ fs, f.payload.length < 4294967296) :
    demuxReadAll incOut incErr (encodeFrames fs ++ rest) =
      (demuxReadAll incOut incErr rest).map
        (fun out => ((fs.filter (frameSelected incOut incErr)).map Frame.payload).flatten ++ out) := by
  induction fs with
  | nil =>
    simp only [encodeFrames, List.map_nil, List.flatten_nil, List.nil_append,
      List.filter_nil]
    cases demuxReadAll incOut incErr rest <;> simp [Except.map]
  | cons f fs ih =>
    have hf : f.payload.length < 4294967296 := h f (List.mem_cons_self f fs)
    have hfs : ∀ g ∈ fs, g.payload.length < 4294967296 :=
      fun g hg => h g (List.mem_cons_of_mem f hg)
    have hshape : encodeFrames (f :: fs) ++ rest =
        f.stream :: 0 :: 0 :: 0 :: f.payload.length / 16777216 % 256 ::
          f.payload.length / 65536 % 256 :: f.payload.length / 256 % 256 ::
          f.payload.length % 256 :: (f.payload ++ (encodeFrames fs ++ rest)) := by
      simp [encodeFrames, encodeFrame, be32]
    have hdecode : ((f.payload.length / 16777216 % 256 * 256 +
        f.payload.length / 65536 % 256) * 256 + f.payload.length / 256 % 256) * 256 +
        f.payload.length % 256 = f.payload.length := by omega
    have hcons_true : frameSelected incOut incErr f = true →
        ((List.filter (frameSelected incOut incErr) (f :: fs)).map Frame.payload).flatten =
          f.payload ++ ((List.filter (frameSelected incOut incErr) fs).map Frame.payload).flatten := by
      intro hs
      simp [List.filter_cons, hs]
    have hcons_false : frameSelected incOut incErr f = false →
        ((List.filter (frameSelected incOut incErr) (f :: fs)).map Frame.payload).flatten =
          ((List.filter (frameSelected incOut incErr) fs).map Frame.payload).flatten := by
      intro hs
      simp [List.filter_cons, hs]
    rw [hshape]
    simp only [demuxReadAll]
    simp only [hdecode]
    by_cases hzero : f.payload.length = 0
    · have hnil : f.payload = [] := List.eq_nil_of_length_eq_zero hzero
      rw [if_pos hzero, hnil, List.nil_append, ih hfs]
      by_cases hs : frameSelected incOut incErr f = true
      · rw [hcons_true hs, hnil, List.nil_append]
      · rw [hcons_false (Bool.eq_false_iff.mpr hs)]
    · rw [if_neg hzero]
      by_cases hs : frameSelected incOut incErr f = true
      · have hs' : (f.stream == 1 && incOut || f.stream == 2 && incErr) = true := by
          simpa [frameSelected] using hs
        rw [hcons_true hs]
        simp only [hs', if_true, List.take_left' rfl, List.drop_left' rfl, ih hfs]
        cases demuxReadAll incOut incErr rest <;> simp [Except.map]
      · have hs' : (f.stream == 1 && incOut || f.stream == 2 && incErr) = false := by
          simpa [frameSelected] using hs
        rw [hcons_false (Bool.eq_false_iff.mpr hs)]
        simp only [hs', List.drop_left' rfl, ih hfs]
        simp

/-- Reading a source made of 1 to 7 bytes fails with the framing error
produced by `io.ReadFull` reporting an unexpected end of file. -/
lemma demuxReadAll_truncated_header (incOut incErr : Bool) (l : List Byte)
    (h1 : 0 < l.length) (h7 : l.length < 8) :
    demuxReadAll incOut incErr l = Except.error "unexpected EOF" := by
  rcases l with _ | ⟨a, _ | ⟨b, _ | ⟨c, _ | ⟨d, _ | ⟨e, _ | ⟨f, _ | ⟨g, t⟩⟩⟩⟩⟩⟩⟩
  · simp at h1
  · rw [demuxReadAll] <;> simp
  · rw [demuxReadAll] <;> simp
  · rw [demuxReadAll] <;> simp
  · rw [demuxReadAll] <;> simp
  · rw [demuxReadAll] <;> simp
  · rw [demuxReadAll] <;> simp
  · have ht : t = [] := by
      cases t with
      | nil => rfl
      | cons x xs =>
        simp [List.length_cons] at h7
        exact absurd h7 (by omega)
    subst ht
    rw [demuxReadAll] <;> simp

/-- C5: for every finite sequence of well-formed frames and every setting of
the include flags, reading the non-TTY filter to exhaustion yields exactly
the concatenation, in arrival order, of the payloads of the selected frames;
unselected payloads are consumed but never emitted and zero-length frames
contribute nothing. -/
theorem demux_emits_selected_payloads_in_order (includeStdout includeStderr : Bool)
    (fs : List Frame) (h : ∀ f ∈ fs, f.payload.length < 4294967296) :
    demuxReadAll includeStdout includeStderr (encodeFrames fs) =
      Except.ok
        (((fs.filter (frameSelected includeStdout includeStderr)).map Frame.payload).flatten) := by
  have happ := demuxReadAll_encodeFrames_append includeStdout includeStderr fs [] h
  simpa [demuxReadAll, Except.map] using happ

/-- Witness for C5 on a concrete frame sequence: stdout-only selection of
the frames stdout "hi", stderr "e", stdout "" (zero-length), stdout "!"
yields exactly "hi!". -/
theorem demux_emits_selected_payloads_in_order_witness :
    (∀ f ∈ [Frame.mk 1 [104, 105], Frame.mk 2 [101], Frame.mk 1 [], Frame.mk 1 [33]],
        f.payload.length < 4294967296) ∧
      demuxReadAll true false
        (encodeFrames [Frame.mk 1 [104, 105], Frame.mk 2 [101], Frame.mk 1 [], Frame.mk 1 [33]]) =
        Except.ok [104, 105, 33] := by
  refine ⟨by decide, ?_⟩
  rw [demux_emits_selected_payloads_in_order true false _ (by decide)]
  rfl

/-- C6: a framed source ending exactly at a frame boundary yields a clean
end of stream, while a source ending with 1 to 7 bytes of a frame header
remaining fails with a framing error. -/
theorem demux_end_of_source_behavior (includeStdout includeStderr : Bool)
    (fs : List Frame) (trailer : List Byte)
    (hfs : ∀ f ∈ fs, f.payload.length < 4294967296)
    (h1 : 0 < trailer.length) (h7 : trailer.length < 8) :
    (∃ out, demuxReadAll includeStdout includeStderr (encodeFrames fs) = Except.ok out) ∧
      demuxReadAll includeStdout includeStderr (encodeFrames fs ++ trailer) =
        Except.error "unexpected EOF" := by
  constructor
  · refine ⟨((fs.filter (frameSelected includeStdout includeStderr)).map Frame.payload).flatten, ?_⟩
    have happ := demuxReadAll_encodeFrames_append includeStdout includeStderr fs [] hfs
    simpa [demuxReadAll, Except.map] using happ
  · rw [demuxReadAll_encodeFrames_append includeStdout includeStderr fs trailer hfs,
      demuxReadAll_truncated_header includeStdout includeStderr trailer h1 h7]
    rfl

/-- Witness for C6: one well-formed stdout frame read cleanly, and the same
frame followed by a 3-byte header fragment failing with the framing error. -/
theorem demux_end_of_source_behavior_witness :
    (0 < [1, 0, 0].length ∧ [1, 0, 0].length < 8) ∧
      (∃ out, demuxReadAll true true (encodeFrames [Frame.mk 1 [7]]) = Except.ok out) ∧
      demuxReadAll true true (encodeFrames [Frame.mk 1 [7]] ++ [1, 0, 0]) =
        Except.error "unexpected EOF" := by
  have h := demux_end_of_source_behavior true true [Frame.mk 1 [7]] [1, 0, 0]
    (by decide) (by decide) (by decide)
  exact ⟨⟨by decide, by decide⟩, h.1, h.2⟩

/-- C4 counterexample: a TTY filter configured with `includeStdout = false`
still reproduces the full source, so the claim that its entire output is
empty fails on the one-byte source `[97]`. -/
theorem tty_filter_includeStdout_false_not_empty :
    (NewLogsFilterReader [97] false false true).readAll = Except.ok [97] ∧
      (NewLogsFilterReader [97] false false true).readAll ≠ Except.ok [] := by
  refine ⟨rfl, ?_⟩
  intro hcontra
  simp [NewLogsFilterReader, LogsFilterReader.readAll] at hcontra

/-- C4 amended: in TTY mode the filter never inspects frame headers and
passes every byte of the source through unchanged, whatever the include
flags are; in particular with `includeStdout = false` its output equals the
full source rather than being empty. -/
theorem tty_mode_is_passthrough (includeStdout includeStderr : Bool) (src : List Byte) :
    (NewLogsFilterReader src includeStdout includeStderr true).readAll = Except.ok src := rfl

/-- C1: evaluation of the storage-fallback reader built by the old
`ContainerLogService.GetContainerLogs` at a failing input. For the query
`{IncludeStdout := true, IncludeStderr := false}` and a stored stream
holding the stdout frame "hi" and the stderr frame "err", the fallback
reader returns the stderr payload "err", while the channel selection the
query asks for (and that the live branch advertises) yields the stdout
payload "hi". -/
theorem old_service_fallback_filter_divergence :
    (storageFallbackReader (LogsQuery.mk "app" true false false)
        (encodeFrames [Frame.mk 1 [104, 105], Frame.mk 2 [101, 114, 114]])).readAll =
        Except.ok [101, 114, 114] ∧
      demuxReadAll true false
          (encodeFrames [Frame.mk 1 [104, 105], Frame.mk 2 [101, 114, 114]]) =
        Except.ok [104, 105] := by
  constructor
  · show demuxReadAll false true
        (encodeFrames [Frame.mk 1 [104, 105], Frame.mk 2 [101, 114, 114]]) = _
    have happ := demuxReadAll_encodeFrames_append false true
      [Frame.mk 1 [104, 105], Frame.mk 2 [101, 114, 114]] [] (by decide)
    simpa [demuxReadAll, Except.map, frameSelected] using happ
  · have happ := demuxReadAll_encodeFrames_append true false
      [Frame.mk 1 [104, 105], Frame.mk 2 [101, 114, 114]] [] (by decide)
    simpa [demuxReadAll, Except.map, frameSelected] using happ

/-- Draining the buffer emits lines whose concatenation with the remaining
buffer restores the drained bytes. -/
lemma splitNL_flatten (l : List Char) :
    (splitNL l).1.flatten ++ (splitNL l).2 = l := by
  induction l with
  | nil => rfl
  | cons c cs ih =>
    rcases hr : splitNL cs with ⟨ls, rest⟩
    rw [hr] at ih
    by_cases hc : c = '\n'
    · subst hc
      simp only [splitNL, hr]
      simpa using ih
    · cases ls with
      | nil =>
        simp only [splitNL, hr, if_neg hc]
        simpa using ih
      | cons lhd ltl =>
        simp only [splitNL, hr, if_neg hc]
        simpa using ih

/-- Every line drained from the buffer is a newline-free content followed by
exactly one trailing newline. -/
lemma splitNL_lines (l : List Char) :
    ∀ r ∈ (splitNL l).1, ∃ content, r = content ++ ['\n'] ∧ content.count '\n' = 0 := by
  induction l with
  | nil => simp [splitNL]
  | cons c cs ih =>
    rcases hr : splitNL cs with ⟨ls, rest⟩
    rw [hr] at ih
    by_cases hc : c = '\n'
    · subst hc
      simp only [splitNL, hr]
      intro r hrr
      rcases List.mem_cons.mp hrr with h | h
      · exact ⟨[], by simp [h]⟩
      · exact ih r h
    · cases ls with
      | nil =>
        simp [splitNL, hr, if_neg hc]
      | cons lhd ltl =>
        simp only [splitNL, hr, if_neg hc]
        intro r hrr
        rcases List.mem_cons.mp hrr with h | h
        · rcases ih lhd (List.mem_cons_self lhd ltl) with ⟨content, hco, hcount⟩
          refine ⟨c :: content, ?_, ?_⟩
          · simp [h, hco]
          · simp [List.count_cons, hcount, hc]
        · exact ih r (List.mem_cons_of_mem lhd h)

/-- The remaining buffer after draining never contains a newline. -/
lemma splitNL_rest (l : List Char) : (splitNL l).2.count '\n' = 0 := by
  induction l with
  | nil => simp [splitNL]
  | cons c cs ih =>
    rcases hr : splitNL cs with ⟨ls, rest⟩
    rw [hr] at ih
    by_cases hc : c = '\n'
    · subst hc
      simpa [splitNL, hr] using ih
    · cases ls with
      | nil => simpa [splitNL, hr, if_neg hc, List.count_cons, hc] using ih
      | cons lhd ltl => simpa [splitNL, hr, if_neg hc] using ih

/-- The bytes of all lines emitted by a sequence of writes, followed by the
final buffer, are exactly the initial buffer followed by all written
bytes. -/
lemma ndjsonWriteAll_flatten (buf : List Char) (chunks : List (List Char)) :
    (ndjsonWriteAll buf chunks).1.flatten ++ (ndjsonWriteAll buf chunks).2 =
      buf ++ chunks.flatten := by
  induction chunks generalizing buf with
  | nil => simp [ndjsonWriteAll]
  | cons p ps ih =>
    simp only [ndjsonWriteAll, ndjsonWrite, List.flatten_cons]
    rw [List.flatten_append, List.append_assoc, ih, ← List.append_assoc,
      splitNL_flatten, List.append_assoc]

/-- Every line emitted by a sequence of writes is newline-terminated content
with exactly one newline. -/
lemma ndjsonWriteAll_lines (buf : List Char) (chunks : List (List Char)) :
    ∀ r ∈ (ndjsonWriteAll buf chunks).1,
      ∃ content, r = content ++ ['\n'] ∧ content.count '\n' = 0 := by
  induction chunks generalizing buf with
  | nil => simp [ndjsonWriteAll]
  | cons p ps ih =>
    intro r hrr
    simp only [ndjsonWriteAll, ndjsonWrite] at hrr
    rcases List.mem_append.mp hrr with h | h
    · exact splitNL_lines _ r h
    · exact ih _ r h

/-- The encoder buffer never contains a newline. -/
lemma ndjsonWriteAll_rest (buf : List Char) (chunks : List (List Char))
    (h : buf.count '\n' = 0) :
    (ndjsonWriteAll buf chunks).2.count '\n' = 0 := by
  induction chunks generalizing buf with
  | nil => simpa [ndjsonWriteAll] using h
  | cons p ps ih =>
    simp only [ndjsonWriteAll, ndjsonWrite]
    exact ih _ (splitNL_rest _)

/-- C7: for every sequence of writes, the encoder emits one record per
newline-terminated line with the trailing newline included, every byte
written reappears in exactly one record (a non-empty final buffer being
flushed by Close as one newline-free record, an empty one producing no
record), and nothing else is emitted. -/
theorem ndjson_encoder_line_records (chunks : List (List Char)) :
    (ndjsonRecords chunks).flatten = chunks.flatten ∧
      (∀ r ∈ (ndjsonWriteAll [] chunks).1,
        ∃ content, r = content ++ ['\n'] ∧ content.count '\n' = 0) ∧
      (∀ r ∈ ndjsonClose (ndjsonWriteAll [] chunks).2, r ≠ [] ∧ r.count '\n' = 0) ∧
      ((ndjsonWriteAll [] chunks).2 = [] → ndjsonClose (ndjsonWriteAll [] chunks).2 = []) := by
  refine ⟨?_, ndjsonWriteAll_lines [] chunks, ?_, ?_⟩
  · have hflat := ndjsonWriteAll_flatten [] chunks
    simp only [List.nil_append] at hflat
    by_cases hb : (ndjsonWriteAll [] chunks).2 = []
    · rw [ndjsonRecords, ndjsonClose, if_pos (by simp [hb])]
      simpa [hb] using hflat
    · rw [ndjsonRecords, ndjsonClose,
        if_neg (by simpa [List.isEmpty_iff] using hb), List.flatten_append]
      simpa using hflat
  · intro r hrr
    by_cases hb : (ndjsonWriteAll [] chunks).2 = []
    · simp [ndjsonClose, hb] at hrr
    · have hne : ((ndjsonWriteAll [] chunks).2.isEmpty = true) → False := by
        simpa [List.isEmpty_iff] using hb
      rw [ndjsonClose, if_neg hne] at hrr
      rw [List.mem_singleton] at hrr
      subst hrr
      exact ⟨hb, ndjsonWriteAll_rest [] chunks rfl⟩
  · intro hb
    simp [ndjsonClose, hb]

/-- Witness for C7 on the chunks "ab\nc" and "d\ne": the writes emit the
records "ab\n" and "cd\n", Close flushes "e", and the concatenation of all
records restores the written bytes. -/
theorem ndjson_encoder_line_records_witness :
    (ndjsonRecords ["ab\nc".data, "d\ne".data]).flatten = "ab\ncd\ne".data ∧
      "ab\n".data ∈ (ndjsonWriteAll [] ["ab\nc".data, "d\ne".data]).1 ∧
      (∃ content, "ab\n".data = content ++ ['\n'] ∧ content.count '\n' = 0) := by
  have h := ndjson_encoder_line_records ["ab\nc".data, "d\ne".data]
  exact ⟨h.1.trans (by decide), by decide, h.2.1 "ab\n".data (by decide)⟩

/-- C8 counterexample: the line made of a parseable RFC3339 timestamp token,
a tab and "x\n" does carry a leading whitespace-separated parseable
timestamp token (the tab is whitespace and the token before it parses), yet
the encoder keeps the whole line as text and attaches no timestamp, because
`ndjsonWriter.emit` looks only for the space byte. -/
theorem codec_whitespace_separator_counterexample :
    Char.isWhitespace '\t' = true ∧
      tabLine.takeWhile (fun c => !c.isWhitespace) = "2024-01-01T00:00:00Z".data ∧
      parseExample (tabLine.takeWhile (fun c => !c.isWhitespace)) = some 1704067200 ∧
      (emit parseExample StreamTypeStdout tabLine).timestamp = 0 ∧
      (emit parseExample StreamTypeStdout tabLine).log = tabLine := by
  refine ⟨by decide, by decide, by decide, ?_, ?_⟩ <;> decide

/-- Unfolding equation of `emit` used to reason by cases on the separator
position and the parse outcome. -/
lemma emit_eq (parse : List Char → Option Nat) (stream : StreamType) (line : List Char) :
    emit parse stream line =
      if 0 < line.findIdx (· == ' ') ∧ line.findIdx (· == ' ') < line.length then
        match parse (line.take (line.findIdx (· == ' '))) with
        | some t =>
          { timestamp := t, stream := stream, log := line.drop (line.findIdx (· == ' ') + 1) }
        | none => { timestamp := 0, stream := stream, log := line }
      else { timestamp := 0, stream := stream, log := line } := rfl

/-- C8 amended: encoding a line through the codec and decoding the wire
reproduces the record, the channel is the one the encoder was built with,
and the timestamp is reproduced exactly when the line carries a leading
token separated by the space byte at a positive index that parses as a
timestamp, in which case the token and the separator are stripped from the
text; otherwise the whole line is kept as text with no timestamp. -/
theorem codec_roundtrip_space_separator (parse : List Char → Option Nat)
    (stream : StreamType) (line : List Char) :
    decodeNDJSON (encodeNDJSON [emit parse stream line]) = [emit parse stream line] ∧
      (emit parse stream line).stream = stream ∧
      (∀ t, 0 < line.findIdx (· == ' ') → line.findIdx (· == ' ') < line.length →
        parse (line.take (line.findIdx (· == ' '))) = some t →
          (emit parse stream line).timestamp = t ∧
          (emit parse stream line).log = line.drop (line.findIdx (· == ' ') + 1)) ∧
      (parse (line.take (line.findIdx (· == ' '))) = none →
          (emit parse stream line).timestamp = 0 ∧
          (emit parse stream line).log = line) ∧
      (¬(0 < line.findIdx (· == ' ') ∧ line.findIdx (· == ' ') < line.length) →
          (emit parse stream line).timestamp = 0 ∧
          (emit parse stream line).log = line) := by
  refine ⟨rfl, ?_, ?_, ?_, ?_⟩
  · rw [emit_eq]
    by_cases hcond : 0 < line.findIdx (· == ' ') ∧ line.findIdx (· == ' ') < line.length
    · rw [if_pos hcond]
      cases hp : parse (line.take (line.findIdx (· == ' '))) <;> simp [hp]
    · rw [if_neg hcond]
  · intro t h1 h2 hp
    rw [emit_eq, if_pos (And.intro h1 h2), hp]
    exact ⟨rfl, rfl⟩
  · intro hp
    rw [emit_eq]
    by_cases hcond : 0 < line.findIdx (· == ' ') ∧ line.findIdx (· == ' ') < line.length
    · rw [if_pos hcond, hp]
      exact ⟨rfl, rfl⟩
    · rw [if_neg hcond]
      exact ⟨rfl, rfl⟩
  · intro hcond
    rw [emit_eq, if_neg hcond]
    exact ⟨rfl, rfl⟩

/-- Witness for the amended C8 on the space-separated line: the timestamp
token is parsed and stripped, the text becomes "x\n", and the wire decodes
back to the same record. -/
theorem codec_roundtrip_space_separator_witness :
    (emit parseExample StreamTypeStdout spaceLine).timestamp = 1704067200 ∧
      (emit parseExample StreamTypeStdout spaceLine).log = "x\n".data ∧
      decodeNDJSON (encodeNDJSON [emit parseExample StreamTypeStdout spaceLine]) =
        [emit parseExample StreamTypeStdout spaceLine] := by
  have h := codec_roundtrip_space_separator parseExample StreamTypeStdout spaceLine
  have h3 := h.2.2.1 1704067200 (by decide) (by decide) (by decide)
  exact ⟨h3.1, h3.2.trans (by decide), h.1⟩

/-- C2: the retrieval service consults storage exactly when the live fetch
fails with the distinguished container-not-found error; every other fetch
error is wrapped and propagated without opening storage; and when the
subsequent storage open also reports not-found, the caller receives that
not-found error. -/
theorem service_fallback_iff_not_found (query : Query)
    (fetchResult openResult : Except GoError NDJSONStream) :
    ((getContainerLogs query fetchResult openResult).2 = true ↔
      ∃ e, fetchResult = Except.error e ∧ e.isContainerNotFound = true) ∧
      (∀ e, fetchResult = Except.error e → e.isContainerNotFound = false →
        getContainerLogs query fetchResult openResult =
          (Except.error (GoError.wrapped "fetch container logs" e), false)) ∧
      (∀ e e2, fetchResult = Except.error e → e.isContainerNotFound = true →
        openResult = Except.error e2 → e2.isContainerNotFound = true →
          getContainerLogs query fetchResult openResult = (Except.error e2, true)) := by
  refine ⟨?_, ?_, ?_⟩
  · cases fetchResult with
    | ok s => simp [getContainerLogs]
    | error e =>
      by_cases he : e.isContainerNotFound = true
      · cases openResult with
        | ok s2 => simp [getContainerLogs, he]
        | error e2 =>
          by_cases he2 : e2.isContainerNotFound = true <;>
            simp [getContainerLogs, he, he2]
      · simp [getContainerLogs, he]
  · intro e heq hnf
    subst heq
    simp [getContainerLogs, hnf]
  · intro e e2 heq hnf heq2 hnf2
    subst heq
    subst heq2
    simp [getContainerLogs, hnf, hnf2]

/-- Witness for C2: a not-found fetch followed by a not-found open returns
the storage not-found error with storage consulted, while a plain fetch
error is wrapped and returned with storage untouched. -/
theorem service_fallback_iff_not_found_witness :
    getContainerLogs (LogsQuery.mk "app" true true false)
        (Except.error (GoError.domain ErrorCodeContainerNotFound "no such container"))
        (Except.error (GoError.domain ErrorCodeContainerNotFound "not stored")) =
      (Except.error (GoError.domain ErrorCodeContainerNotFound "not stored"), true) ∧
      getContainerLogs (LogsQuery.mk "app" true true false)
        (Except.error (GoError.plain "engine down"))
        (Except.error (GoError.domain ErrorCodeContainerNotFound "not stored")) =
      (Except.error (GoError.wrapped "fetch container logs" (GoError.plain "engine down")),
        false) := by
  constructor
  · exact (service_fallback_iff_not_found (LogsQuery.mk "app" true true false) _ _).2.2
      (GoError.domain ErrorCodeContainerNotFound "no such container")
      (GoError.domain ErrorCodeContainerNotFound "not stored")
      rfl (by decide) rfl (by decide)
  · exact (service_fallback_iff_not_found (LogsQuery.mk "app" true true false) _ _).2.1
      (GoError.plain "engine down") rfl (by decide)

/-- C10: a decoded record whose stream tag is neither "stdout" nor "stderr"
is silently omitted by the record filter for every query, producing neither
output bytes nor an error: the filtered stream equals the one without the
record, and the service still answers with a successful stream. -/
theorem foreign_stream_tag_omitted (query : Query) (pre post : List Record)
    (rec : Record) (openResult : Except GoError NDJSONStream)
    (h1 : rec.stream ≠ StreamTypeStdout) (h2 : rec.stream ≠ StreamTypeStderr) :
    filterNDJSON query (pre ++ rec :: post) = filterNDJSON query (pre ++ post) ∧
      (getContainerLogs query (Except.ok (encodeNDJSON (pre ++ rec :: post))) openResult).1 =
        Except.ok (filterNDJSON query (pre ++ post)) := by
  have ha : (rec.stream == StreamTypeStderr) = false := beq_eq_false_iff_ne.mpr h2
  have hb : (rec.stream == StreamTypeStdout) = false := beq_eq_false_iff_ne.mpr h1
  have hinc : recordIncluded query rec = false := by
    simp [recordIncluded, ha, hb]
  have hfil : filterNDJSON query (pre ++ rec :: post) = filterNDJSON query (pre ++ post) := by
    simp [filterNDJSON, List.filter_append, List.filter_cons, hinc]
  exact ⟨hfil, by simp [getContainerLogs, decodeNDJSON, encodeNDJSON, hfil]⟩

/-- Witness for C10: a record tagged "stdin" contributes nothing even with
both channels requested, and the service stream is the one of the remaining
stdout record. -/
theorem foreign_stream_tag_omitted_witness :
    filterNDJSON (LogsQuery.mk "app" true true false)
        ([] ++ Record.mk 0 "stdin" "oops\n".data :: [Record.mk 0 "stdout" "ok\n".data]) =
      filterNDJSON (LogsQuery.mk "app" true true false)
        ([] ++ [Record.mk 0 "stdout" "ok\n".data]) ∧
      (getContainerLogs (LogsQuery.mk "app" true true false)
          (Except.ok (encodeNDJSON
            ([] ++ Record.mk 0 "stdin" "oops\n".data :: [Record.mk 0 "stdout" "ok\n".data])))
          (Except.ok (encodeNDJSON []))).1 =
        Except.ok (filterNDJSON (LogsQuery.mk "app" true true false)
          ([] ++ [Record.mk 0 "stdout" "ok\n".data])) := by
  have h := foreign_stream_tag_omitted (LogsQuery.mk "app" true true false)
    [] [Record.mk 0 "stdout" "ok\n".data] (Record.mk 0 "stdin" "oops\n".data)
    (Except.ok (encodeNDJSON [])) (by decide) (by decide)
  exact ⟨h.1, h.2⟩

/-- C3: when the parsed include flags are both off (stdout parameter not
"1", stderr parameter "0"), the handler answers a valid empty 200 stream
without invoking the retrieval service and hence without contacting
storage. -/
theorem handler_both_flags_off (name stdoutParam stderrParam followParam : String)
    (fetchResult openResult : Except GoError NDJSONStream)
    (h1 : (stdoutParam == "1") = false) (h2 : stderrParam = "0") :
    handleLogs name stdoutParam stderrParam followParam fetchResult openResult =
      { status := 200, body := [], serviceCalled := false, storageContacted := false } := by
  subst h2
  simp [handleLogs, h1]

/-- Witness for C3 at the request stdout=0, stderr=0 with both backends
populated: the handler short-circuits to the empty 200 response. -/
theorem handler_both_flags_off_witness :
    handleLogs "app" "0" "0" ""
        (Except.ok (encodeNDJSON [Record.mk 0 "stdout" "hi\n".data]))
        (Except.ok (encodeNDJSON [Record.mk 0 "stderr" "err\n".data])) =
      { status := 200, body := [], serviceCalled := false, storageContacted := false } :=
  handler_both_flags_off "app" "0" "0" ""
    (Except.ok (encodeNDJSON [Record.mk 0 "stdout" "hi\n".data]))
    (Except.ok (encodeNDJSON [Record.mk 0 "stderr" "err\n".data])) (by decide) rfl

/-- Every reachable state of the collector run satisfies the WaitGroup
accounting invariant, cancellation happens before waiting, and a returned
run has a drained WaitGroup. -/
lemma collector_invariant (s : CollectorState) (h : CollectorReachable s) :
    s.wgCount + s.exitedTasks = s.spawnedTasks ∧
      ((s.phase = RunPhase.waiting ∨ s.phase = RunPhase.returned) → s.cancelled = true) ∧
      (s.phase = RunPhase.returned → s.wgCount = 0) := by
  induction h with
  | init => simp [CollectorState.init]
  | step hr hstep ih =>
    rcases ih with ⟨ih1, ih2, ih3⟩
    cases hstep with
    | listContainersError ht => exact ⟨by simpa using ih1, by simp, by simp⟩
    | discoverSpawn k ht => exact ⟨by simp; omega, by simp, by simp⟩
    | watchStartEvent ht => exact ⟨by simp; omega, by simpa using ih2, by simp [ht]⟩
    | watchSkipEvent ht => exact ⟨ih1, ih2, ih3⟩
    | watchExit ht => exact ⟨by simpa using ih1, by simp, by simp⟩
    | deferCancel ht => exact ⟨by simpa using ih1, by simp, by simp⟩
    | taskExit ht =>
      refine ⟨by simp; omega, by simpa using ih2, ?_⟩
      intro hph
      have h0 := ih3 (by simpa using hph)
      omega
    | waitReturn ht hwg =>
      refine ⟨by simpa using ih1, ?_, ?_⟩
      · intro _
        simpa using ih2 (Or.inl ht)
      · intro _
        simpa using hwg

/-- C9: whenever the collector run has returned, every spawned capture task
has exited (and the run context was cancelled first): no background capture
work is left running. -/
theorem collector_run_joins_all_tasks (s : CollectorState)
    (h : CollectorReachable s) (hret : s.phase = RunPhase.returned) :
    s.exitedTasks = s.spawnedTasks ∧ s.cancelled = true := by
  obtain ⟨h1, h2, h3⟩ := collector_invariant s h
  exact ⟨by have := h3 hret; omega, h2 (Or.inr hret)⟩

/-- Witness for C9: an execution that discovers one container, receives the
cancellation, sees the capture task exit and only then returns, ending in a
state where all spawned tasks have exited. -/
theorem collector_run_joins_all_tasks_witness :
    CollectorReachable
        { phase := RunPhase.returned, wgCount := 0, spawnedTasks := 1, exitedTasks := 1,
          cancelled := true } ∧
      (1 : Nat) = 1 ∧ true = true := by
  have h0 := CollectorReachable.init
  have h1 := CollectorReachable.step h0 (CollectorStep.discoverSpawn _ 1 rfl)
  have h2 := CollectorReachable.step h1 (CollectorStep.watchExit _ rfl)
  have h3 := CollectorReachable.step h2 (CollectorStep.deferCancel _ rfl)
  have h4 := CollectorReachable.step h3 (CollectorStep.taskExit _ (by decide))
  have h5 := CollectorReachable.step h4 (CollectorStep.waitReturn _ rfl (by decide))
  have hfin : CollectorReachable
      { phase := RunPhase.returned, wgCount := 0, spawnedTasks := 1, exitedTasks := 1,
        cancelled := true } := h5
  exact ⟨hfin, (collector_run_joins_all_tasks _ hfin rfl).1,
    (collector_run_joins_all_tasks _ hfin rfl).2⟩

end DockerLogProxy
